import Mathlib

/-!
Shallow embedding of `src/udev/udev-watch.c` (udev inotify-watch bookkeeping).

The C unit keeps a process-wide inotify descriptor (`inotify_fd`), a durable
registry of symlinks `/run/udev/watch/<decimal wd> -> <device id>`, and the
operations `udev_watch_init`, `udev_watch_restore`, `udev_watch_begin`,
`udev_watch_end`, `udev_watch_lookup`.

The embedding represents the relevant state explicitly:
  * `St` carries the inotify descriptor, the kernel-side watch set with a
    fresh-handle counter, and the two directories `/run/udev/watch` and
    `/run/udev/watch.old` as optional lists of directory entries
    (`none` = the directory does not exist).
  * `sd_device` carries the three device-object facts the unit reads or
    writes: the device node path, the id-filename, and the mutable
    watch-handle field (negative = not set, as in `device_get_watch_handle`).
  * `Env` carries the external collaborators: the device-id resolution
    service `sd_device_new_from_device_id` and the kernel's answer to
    `inotify_add_watch` on a given node path.
Return values are C-style: `0` for success, `-errno` on failure.
-/

/-- `EINVAL`, as returned through `log_error_errno(EINVAL, ...)`. -/
def EINVAL : Int := 22

/-- `ENOENT`. -/
def ENOENT : Int := 2

/-- `EACCES`, a representative errno for a failing `inotify_add_watch`. -/
def EACCES : Int := 13

/-- `ENODEV`, a representative errno for a failing `sd_device_new_from_device_id`. -/
def ENODEV : Int := 19

/-- `ENAMETOOLONG`, returned by `udev_watch_lookup` on a truncated link target. -/
def ENAMETOOLONG : Int := 36

/-- `ENOTEMPTY`, the errno of `rename` onto an existing non-empty directory. -/
def ENOTEMPTY : Int := 39

/-- `PATH_MAX`, the size of the `char device[PATH_MAX]` read buffers. -/
def PATH_MAX : Nat := 4096

/-- The decimal digit character for `d < 10`, as printed by `%d`. -/
def digitChar (d : Nat) : Char := Char.ofNat (48 + d)

/-- Decimal digit string of a natural number, most significant digit first:
the output of `xsprintf(buf, "%d", n)` for non-negative `n`. -/
def decDigits (n : Nat) : List Char :=
  if _h : n < 10 then [digitChar n]
  else decDigits (n / 10) ++ [digitChar (n % 10)]
decreasing_by exact Nat.div_lt_self (by omega) (by omega)

/-- The directory-entry name `xsprintf(filename, "/run/udev/watch/%d", wd)`
uses for watch handle `wd` (the basename only; the directory is tracked
separately in `St`). -/
def wdName (wd : Int) : String :=
  if wd < 0 then String.mk ('-' :: decDigits wd.natAbs)
  else String.mk (decDigits wd.toNat)

/-- The fields of `sd_device` this unit reads or writes: the device node
path (`sd_device_get_devname`), the id-filename (`device_get_id_filename`),
and the mutable watch-handle field (`device_get_watch_handle` /
`device_set_watch_handle`; negative means "not set", reported as `-ENOENT`). -/
structure sd_device where
  devname : Option String
  id_filename : Option String
  watch_handle : Int
deriving DecidableEq

/-- A directory entry: a name and, when the entry is a symlink, its target.
`target = none` models a non-symlink entry, on which `readlink` fails with
`EINVAL`. -/
structure DirEnt where
  name : String
  target : Option String
deriving DecidableEq

/-- The state the C unit manipulates: the static `inotify_fd`, the
kernel-side inotify watch set (`kernelWatches`, with `nextWd` the next
handle the kernel will hand out), and the directories `/run/udev/watch`
(`watchDir`) and `/run/udev/watch.old` (`watchOldDir`), each `none` when
the directory does not exist. -/
structure St where
  inotify_fd : Int
  nextWd : Int
  kernelWatches : List Int
  watchDir : Option (List DirEnt)
  watchOldDir : Option (List DirEnt)
deriving DecidableEq

/-- External collaborators: `resolve` is `sd_device_new_from_device_id`
(`none` = resolution fails), `watchable` tells whether `inotify_add_watch`
succeeds on a given device node path. -/
structure Env where
  resolve : String → Option sd_device
  watchable : String → Bool

/-- `udev_watch_init`: `inotify_fd = inotify_init1(IN_CLOEXEC)`; on failure
the C call returns `-1` (stored in `inotify_fd`) and the function returns
`-errno`. `res` is the kernel's answer: `.ok fd` or `.error errno`. -/
def udev_watch_init (st : St) (res : Except Int Nat) : Int × St :=
  match res with
  | Except.ok fd => ((fd : Int), { st with inotify_fd := (fd : Int) })
  | Except.error e => (-e, { st with inotify_fd := -1 })

/-- `IN_CLOEXEC` (= `O_CLOEXEC` = `02000000` octal): the close-on-exec flag
bit of `inotify_init1`. -/
def IN_CLOEXEC : Nat := 524288

/-- The flag word `udev_watch_init` passes to `inotify_init1` at
`udev-watch.c:22`: `inotify_init1(IN_CLOEXEC)`. -/
def udev_watch_init_flags : Nat := IN_CLOEXEC

/-- `udev_watch_begin(dev)`. Steps, in source order: fail `-EINVAL` if the
channel is uninitialized; get the devname (else return the error);
`inotify_add_watch` (else return `-errno`); `device_set_watch_handle(dev, wd)`;
`mkdir_parents` (creates `/run/udev/watch` if absent; cannot fail in the
model); `unlink` any stale entry of that name; get the id-filename (else
return the error); `symlink(id_filename, filename)` (the kernel rejects an
empty target with `ENOENT` and an over-long target with `ENAMETOOLONG`). -/
def udev_watch_begin (env : Env) (st : St) (dev : sd_device) : Int × St × sd_device :=
  if st.inotify_fd < 0 then (-EINVAL, st, dev)
  else
    match dev.devname with
    | none => (-ENOENT, st, dev)
    | some devnode =>
      if env.watchable devnode then
        let wd : Int := st.nextWd
        let st1 : St := { st with nextWd := st.nextWd + 1, kernelWatches := wd :: st.kernelWatches }
        let dev1 : sd_device := { dev with watch_handle := wd }
        let entries0 : List DirEnt := st1.watchDir.getD []
        let entries1 : List DirEnt := entries0.filter (fun e => !(e.name == wdName wd))
        let st2 : St := { st1 with watchDir := some entries1 }
        match dev.id_filename with
        | none => (-ENOENT, st2, dev1)
        | some idf =>
          if idf.length = 0 ∨ PATH_MAX ≤ idf.length then (-ENAMETOOLONG, st2, dev1)
          else (0, { st2 with watchDir := some (entries1 ++ [{ name := wdName wd, target := some idf }]) }, dev1)
      else (-EACCES, st, dev)

/-- `udev_watch_end(dev)`. Fail `-EINVAL` if the channel is uninitialized;
`device_get_watch_handle` (`-ENOENT`, i.e. a negative stored handle, is a
successful no-op; the C code then returns 0); get the devname (else return
the error, leaving the handle field untouched); best-effort
`inotify_rm_watch`; best-effort `unlink` of the registry entry;
`device_set_watch_handle(dev, -1)`. -/
def udev_watch_end (st : St) (dev : sd_device) : Int × St × sd_device :=
  if st.inotify_fd < 0 then (-EINVAL, st, dev)
  else if dev.watch_handle < 0 then (0, st, dev)
  else
    match dev.devname with
    | none => (-ENOENT, st, dev)
    | some _ =>
      let st1 : St :=
        { st with
          kernelWatches := st.kernelWatches.filter (fun w => !(w == dev.watch_handle)),
          watchDir := st.watchDir.map (fun l => l.filter (fun e => !(e.name == wdName dev.watch_handle))) }
      (0, st1, { dev with watch_handle := -1 })

/-- `udev_watch_lookup(wd, &ret)`. Fail `-EINVAL` on an uninitialized
channel or a negative handle; `readlink("/run/udev/watch/<wd>")`: a missing
entry is `ENOENT`, hence a benign `(0, none)`; a non-symlink entry fails
with `-EINVAL`; a target of length `≥ PATH_MAX` is truncated by `readlink`
to `PATH_MAX` bytes and reported as `-ENAMETOOLONG`; an empty target would
take the `len <= 0` path (unreachable for real symlinks, which cannot be
empty); otherwise resolve the id via `sd_device_new_from_device_id`. -/
def udev_watch_lookup (env : Env) (st : St) (wd : Int) : Int × Option sd_device :=
  if st.inotify_fd < 0 then (-EINVAL, none)
  else if wd < 0 then (-EINVAL, none)
  else
    match (st.watchDir.getD []).find? (fun e => e.name == wdName wd) with
    | none => (0, none)
    | some e =>
      match e.target with
      | none => (-EINVAL, none)
      | some t =>
        let len : Nat := min t.length PATH_MAX
        if len = 0 then (0, none)
        else if PATH_MAX ≤ len then (-ENAMETOOLONG, none)
        else
          match env.resolve t with
          | none => (-ENODEV, none)
          | some d => (0, some d)

/-- `ent->d_name[0] == '.'`: the restore loop's check that skips hidden
entries (and `.`/`..`). For an empty name `d_name[0]` is `NUL`, not `.`. -/
def dotName (s : String) : Bool := s.data.head? == some '.'

/-- One iteration of the `FOREACH_DIRENT_ALL` loop of `udev_watch_restore`,
folded over the entries of the relocated directory. The accumulator holds
the entries still present in `/run/udev/watch.old` (skipped, i.e. not
unlinked) and the evolving state. A dot-named entry is skipped wholly;
otherwise: `readlinkat` failure (non-symlink), a `len <= 0` read, a
truncated (`len >= PATH_MAX`) target, or a failing
`sd_device_new_from_device_id` each just log; on success
`udev_watch_begin` runs with its result ignored; in every non-dot case the
entry is then unlinked. -/
def restoreStep (env : Env) (acc : List DirEnt × St) (e : DirEnt) : List DirEnt × St :=
  if dotName e.name then (acc.1 ++ [e], acc.2)
  else
    let st2 : St :=
      match e.target with
      | none => acc.2
      | some t =>
        let len : Nat := min t.length PATH_MAX
        if len = 0 then acc.2
        else if PATH_MAX ≤ len then acc.2
        else
          match env.resolve t with
          | none => acc.2
          | some dev => (udev_watch_begin env acc.2 dev).2.1
    (acc.1, st2)

/-- `udev_watch_restore()`. Fail `-EINVAL` if the channel is uninitialized.
`rename("/run/udev/watch", "/run/udev/watch.old")`: if the live directory
does not exist this is `ENOENT` and restore returns 0; renaming onto an
existing non-empty `watch.old` fails (`ENOTEMPTY`) and aborts. Then the
loop (`restoreStep`) runs over every entry, and finally
`rmdir("/run/udev/watch.old")` is attempted best-effort: it succeeds iff
the directory ended up empty. -/
def udev_watch_restore (env : Env) (st : St) : Int × St :=
  if st.inotify_fd < 0 then (-EINVAL, st)
  else
    match st.watchDir, st.watchOldDir with
    | none, _ => (0, st)
    | some _, some (_e :: _l) => (-ENOTEMPTY, st)
    | some entries, _ =>
      let stR : St := { st with watchDir := none, watchOldDir := some entries }
      let r := entries.foldl (restoreStep env) ([], stR)
      (0, { r.2 with watchOldDir := if r.1.isEmpty then none else some r.1 })

/-- Operations that may run between a `begin` and the matching `end`
(channel re-initialization excluded, as in the claim "until end(d) or
channel reset"). -/
inductive UOp where
  | ubegin (d : sd_device)
  | uend (d : sd_device)

/-- State effect of one interleaved operation (its return value and the
updated device object are dropped). -/
def applyOp (env : Env) (st : St) : UOp → St
  | UOp.ubegin d => (udev_watch_begin env st d).2.1
  | UOp.uend d => (udev_watch_end st d).2.1

/-- State effect of a sequence of interleaved operations. -/
def applyOps (env : Env) (ops : List UOp) (st : St) : St :=
  ops.foldl (applyOp env) st

/-- A resolution service under which every device identifier resolves to a
device carrying exactly that identifier, and every node path is watchable:
a well-behaved external world for instantiating theorems. -/
def envTotal : Env :=
  { resolve := fun s =>
      some { devname := some "/dev/sda", id_filename := some s, watch_handle := -1 },
    watchable := fun _ => true }

/-- An environment in which nothing resolves and nothing is watchable. -/
def envEmpty : Env :=
  { resolve := fun _ => none, watchable := fun _ => false }

/-- A freshly initialized state: channel open on descriptor 0, no kernel
watches, neither registry directory present. -/
def stInit : St :=
  { inotify_fd := 0, nextWd := 0, kernelWatches := [], watchDir := none, watchOldDir := none }

/-- A state whose channel was never initialized (`inotify_fd = -1`). -/
def stNoInit : St :=
  { inotify_fd := -1, nextWd := 0, kernelWatches := [], watchDir := none, watchOldDir := none }

/-- A healthy device: resolvable node path and id-filename, no watch yet. -/
def devSda : sd_device :=
  { devname := some "/dev/sda", id_filename := some "b8:0", watch_handle := -1 }

/-- A second healthy device. -/
def devSdb : sd_device :=
  { devname := some "/dev/sdb", id_filename := some "b8:16", watch_handle := -1 }

/-- A device that vanished: watch handle 3 still recorded in its field, but
its node path is no longer retrievable. -/
def devGone : sd_device :=
  { devname := none, id_filename := none, watch_handle := 3 }

/-- A watched device (handle 5) whose name is still retrievable. -/
def devStale : sd_device :=
  { devname := some "/dev/sdc", id_filename := none, watch_handle := 5 }

/-- The state `udev_watch_begin envTotal stInit devSda` produces: handle 0
armed, registry entry `0 -> b8:0` written. -/
def stW : St :=
  { inotify_fd := 0, nextWd := 1, kernelWatches := [0],
    watchDir := some [{ name := wdName 0, target := some "b8:0" }], watchOldDir := none }

/-- The device object after that `begin`: watch-handle field set to 0. -/
def devW : sd_device :=
  { devname := some "/dev/sda", id_filename := some "b8:0", watch_handle := 0 }

/-- Interleaved operations for the persistence witness: a `begin` on a
different device. -/
def opsW : List UOp := [UOp.ubegin devSdb]

/-- A live registry holding only a hidden (dot-named) entry. -/
def stDot : St :=
  { inotify_fd := 0, nextWd := 0, kernelWatches := [],
    watchDir := some [{ name := ".w", target := some "x" }], watchOldDir := none }

/-- A live registry mixing an unresolvable entry, a hidden entry, and a
non-symlink entry. -/
def stMix : St :=
  { inotify_fd := 0, nextWd := 0, kernelWatches := [],
    watchDir := some
      [{ name := "5", target := some "badid" },
       { name := ".hid", target := some "x" },
       { name := "7", target := none }],
    watchOldDir := none }

/-- A live registry with one ordinary (non-hidden) entry. -/
def stPlain : St :=
  { inotify_fd := 0, nextWd := 0, kernelWatches := [],
    watchDir := some [{ name := "3", target := some "y" }], watchOldDir := none }

/-- A registry-entry target of length exactly `PATH_MAX`. -/
def longTarget : String := String.mk (List.replicate PATH_MAX 'a')

/-- A registry whose entry for handle 3 has an over-long (corrupt) target. -/
def stLong : St :=
  { inotify_fd := 0, nextWd := 4, kernelWatches := [3],
    watchDir := some [{ name := wdName 3, target := some longTarget }], watchOldDir := none }

/-- Distinct decimal digits print as distinct characters. -/
theorem digitChar_inj_fin : ∀ a b : Fin 10, digitChar a.val = digitChar b.val → a = b := by
  decide

theorem digitChar_inj (a b : Nat) (ha : a < 10) (hb : b < 10)
    (h : digitChar a = digitChar b) : a = b := by
  have h2 := digitChar_inj_fin ⟨a, ha⟩ ⟨b, hb⟩ h
  exact congrArg Fin.val h2

theorem decDigits_ne_nil (n : Nat) : decDigits n ≠ [] := by
  rw [decDigits]
  split
  · simp
  · simp

theorem decDigits_lt (n : Nat) (h : n < 10) : decDigits n = [digitChar n] := by
  conv_lhs => rw [decDigits]
  exact dif_pos h

theorem decDigits_ge (n : Nat) (h : ¬ n < 10) :
    decDigits n = decDigits (n / 10) ++ [digitChar (n % 10)] := by
  conv_lhs => rw [decDigits]
  exact dif_neg h

/-- The decimal encoding is injective. -/
theorem decDigits_inj (m : Nat) : ∀ n : Nat, decDigits m = decDigits n → m = n := by
  induction m using Nat.strong_induction_on with
  | _ m ih =>
    intro n h
    by_cases hm : m < 10
    · by_cases hn : n < 10
      · rw [decDigits_lt m hm, decDigits_lt n hn] at h
        simp only [List.cons.injEq, and_true] at h
        exact digitChar_inj m n hm hn h
      · rw [decDigits_lt m hm, decDigits_ge n hn] at h
        have hlen := congrArg List.length h
        simp only [List.length_cons, List.length_nil, List.length_append] at hlen
        have hempty : decDigits (n / 10) = [] := by
          cases hq : decDigits (n / 10) with
          | nil => rfl
          | cons a t => rw [hq] at hlen; simp at hlen
        exact absurd hempty (decDigits_ne_nil _)
    · by_cases hn : n < 10
      · rw [decDigits_ge m hm, decDigits_lt n hn] at h
        have hlen := congrArg List.length h
        simp only [List.length_cons, List.length_nil, List.length_append] at hlen
        have hempty : decDigits (m / 10) = [] := by
          cases hq : decDigits (m / 10) with
          | nil => rfl
          | cons a t => rw [hq] at hlen; simp at hlen
        exact absurd hempty (decDigits_ne_nil _)
      · rw [decDigits_ge m hm, decDigits_ge n hn] at h
        have hsplit := List.append_inj' h (by simp)
        have h1 : m / 10 = n / 10 :=
          ih (m / 10) (Nat.div_lt_self (by omega) (by omega)) (n / 10) hsplit.1
        have h2 : m % 10 = n % 10 := by
          have h3 := hsplit.2
          simp only [List.cons.injEq, and_true] at h3
          exact digitChar_inj _ _ (Nat.mod_lt _ (by omega)) (Nat.mod_lt _ (by omega)) h3
        omega

/-- Distinct non-negative watch handles have distinct registry-entry names. -/
theorem wdName_inj (a b : Int) (ha : 0 ≤ a) (hb : 0 ≤ b) (h : wdName a = wdName b) :
    a = b := by
  rw [wdName, wdName, if_neg (by omega), if_neg (by omega)] at h
  have hd : decDigits a.toNat = decDigits b.toNat := by
    injection h
  have h2 := decDigits_inj _ _ hd
  omega

/-- Filtering away entries of a different name does not change a `find?`
by name. -/
theorem find?_filter_ne (l : List DirEnt) (n m : String) (hnm : n ≠ m) :
    (l.filter (fun e => !(e.name == m))).find? (fun e => e.name == n)
      = l.find? (fun e => e.name == n) := by
  induction l with
  | nil => rfl
  | cons a t ih =>
    by_cases hm : a.name = m
    · have h1 : (a.name == m) = true := beq_iff_eq.mpr hm
      have h2 : (a.name == n) = false := by
        rw [beq_eq_false_iff_ne, hm]
        exact fun hh => hnm hh.symm
      simp [List.filter_cons, List.find?_cons, h1, h2, ih]
    · have h1 : (a.name == m) = false := beq_eq_false_iff_ne.mpr hm
      by_cases hn : a.name = n
      · have h2 : (a.name == n) = true := beq_iff_eq.mpr hn
        simp [List.filter_cons, List.find?_cons, h1, h2]
      · have h2 : (a.name == n) = false := beq_eq_false_iff_ne.mpr hn
        simp [List.filter_cons, List.find?_cons, h1, h2, ih]

/-- After filtering away every entry named `n`, a `find?` for `n` fails. -/
theorem find?_filter_self (l : List DirEnt) (n : String) :
    (l.filter (fun e => !(e.name == n))).find? (fun e => e.name == n) = none := by
  induction l with
  | nil => rfl
  | cons a t ih =>
    by_cases hn : a.name = n
    · have h1 : (a.name == n) = true := beq_iff_eq.mpr hn
      simp [List.filter_cons, h1, ih]
    · have h1 : (a.name == n) = false := beq_eq_false_iff_ne.mpr hn
      simp [List.filter_cons, List.find?_cons, h1, ih]

/-- A successful `find?` on the left list survives an append. -/
theorem find?_append_left (l1 l2 : List DirEnt) (p : DirEnt → Bool) (e : DirEnt)
    (h : l1.find? p = some e) : (l1 ++ l2).find? p = some e := by
  induction l1 with
  | nil => simp [List.find?] at h
  | cons a t ih =>
    cases hp : p a with
    | true => simp_all [List.find?_cons]
    | false => simp_all [List.find?_cons]

/-- A failing `find?` on the left list defers to the right list. -/
theorem find?_append_right (l1 l2 : List DirEnt) (p : DirEnt → Bool)
    (h : l1.find? p = none) : (l1 ++ l2).find? p = l2.find? p := by
  induction l1 with
  | nil => simp
  | cons a t ih =>
    cases hp : p a with
    | true => simp_all [List.find?_cons]
    | false => simp_all [List.find?_cons]

/-- The entries left in `/run/udev/watch.old` by the restore loop are the
skipped (dot-named) ones, appended to whatever the accumulator held. -/
theorem restore_foldl_kept (env : Env) (l : List DirEnt) :
    ∀ (k : List DirEnt) (st : St),
      (l.foldl (restoreStep env) (k, st)).1 = k ++ l.filter (fun e => dotName e.name) := by
  induction l with
  | nil => intro k st; simp
  | cons e t ih =>
    intro k st
    by_cases hd : dotName e.name
    · simp only [List.foldl_cons, restoreStep, hd, if_pos]
      rw [ih (k ++ [e])]
      simp [List.filter_cons, hd]
    · simp only [List.foldl_cons, restoreStep, hd, if_neg, Bool.false_eq_true,
        not_false_eq_true]
      rw [ih k]
      simp [List.filter_cons, hd]

/-- If every entry is dot-named, the restore loop leaves the state alone
(no target read, no watch re-armed, nothing unlinked). -/
theorem restore_foldl_st_dots (env : Env) (l : List DirEnt) :
    ∀ (k : List DirEnt) (st : St), (∀ e ∈ l, dotName e.name = true) →
      (l.foldl (restoreStep env) (k, st)).2 = st := by
  induction l with
  | nil => intro k st _; rfl
  | cons e t ih =>
    intro k st h
    have hd : dotName e.name = true := h e (List.mem_cons_self e t)
    simp only [List.foldl_cons, restoreStep, hd, if_pos]
    exact ih (k ++ [e]) st (fun x hx => h x (List.mem_cons_of_mem e hx))

/-- Neither `udev_watch_begin` nor `udev_watch_end` ever writes
`inotify_fd`, so interleaved operations preserve it. -/
theorem applyOp_inotify_fd (env : Env) (st : St) (o : UOp) :
    (applyOp env st o).inotify_fd = st.inotify_fd := by
  cases o with
  | ubegin d =>
    simp only [applyOp, udev_watch_begin]
    split
    · rfl
    · split
      · rfl
      · split
        · split
          · rfl
          · split
            · rfl
            · rfl
        · rfl
  | uend d =>
    simp only [applyOp, udev_watch_end]
    split
    · rfl
    · split
      · rfl
      · split
        · rfl
        · rfl

theorem applyOps_inotify_fd (env : Env) (ops : List UOp) :
    ∀ st : St, (applyOps env ops st).inotify_fd = st.inotify_fd := by
  induction ops with
  | nil => intro st; rfl
  | cons o t ih =>
    intro st
    have hstep : applyOps env (o :: t) st = applyOps env t (applyOp env st o) := rfl
    rw [hstep, ih, applyOp_inotify_fd]

/-- Invariant carried between `begin(d)` and `end(d)`: the handle `wd` is
non-negative and below the kernel's fresh-handle counter, and the registry
resolves its name to a symlink entry whose target is `idf`. -/
def Good (st : St) (wd : Int) (idf : String) : Prop :=
  0 ≤ wd ∧ wd < st.nextWd ∧
    (st.watchDir.getD []).find? (fun e => e.name == wdName wd)
      = some { name := wdName wd, target := some idf }

/-- A single interleaved operation that is not `end` on the handle `wd`
preserves `Good`. -/
theorem Good_applyOp (env : Env) (st : St) (wd : Int) (idf : String) (o : UOp)
    (hg : Good st wd idf)
    (ho : ∀ d : sd_device, o = UOp.uend d → d.watch_handle ≠ wd) :
    Good (applyOp env st o) wd idf := by
  obtain ⟨hwd0, hlt, hfind⟩ := hg
  cases o with
  | ubegin d =>
    simp only [applyOp, udev_watch_begin]
    have hne : wdName wd ≠ wdName st.nextWd := by
      intro he
      have := wdName_inj wd st.nextWd hwd0 (by omega) he
      omega
    have hfilter :
        ((st.watchDir.getD []).filter (fun e => !(e.name == wdName st.nextWd))).find?
            (fun e => e.name == wdName wd)
          = some { name := wdName wd, target := some idf } := by
      rw [find?_filter_ne _ _ _ hne]
      exact hfind
    split
    · exact ⟨hwd0, hlt, hfind⟩
    · split
      · exact ⟨hwd0, hlt, hfind⟩
      · split
        · split
          · refine ⟨hwd0, by simp; omega, ?_⟩
            simpa using hfilter
          · split
            · refine ⟨hwd0, by simp; omega, ?_⟩
              simpa using hfilter
            · refine ⟨hwd0, by simp; omega, ?_⟩
              simp only [Option.getD_some]
              exact find?_append_left _ _ _ _ hfilter
        · exact ⟨hwd0, hlt, hfind⟩
  | uend d =>
    have hdwd : d.watch_handle ≠ wd := ho d rfl
    simp only [applyOp, udev_watch_end]
    split
    · exact ⟨hwd0, hlt, hfind⟩
    · split
      · exact ⟨hwd0, hlt, hfind⟩
      · split
        · exact ⟨hwd0, hlt, hfind⟩
        · refine ⟨hwd0, by simp; omega, ?_⟩
          cases hwdir : st.watchDir with
          | none => rw [hwdir] at hfind; simp [List.find?] at hfind
          | some l =>
            rw [hwdir] at hfind
            simp only [Option.getD_some] at hfind
            have hne2 : wdName wd ≠ wdName d.watch_handle := by
              intro he
              exact hdwd (wdName_inj d.watch_handle wd (by omega) hwd0 he.symm)
            dsimp only
            simp only [Option.map_some', Option.getD_some]
            rw [find?_filter_ne _ _ _ hne2]
            exact hfind

/-- A sequence of interleaved operations none of which is `end` on the
handle `wd` preserves `Good`. -/
theorem Good_applyOps (env : Env) (ops : List UOp) (wd : Int) (idf : String) :
    ∀ st : St, Good st wd idf →
      (∀ d : sd_device, UOp.uend d ∈ ops → d.watch_handle ≠ wd) →
      Good (applyOps env ops st) wd idf := by
  induction ops with
  | nil => intro st hg _; exact hg
  | cons o t ih =>
    intro st hg hops
    have hstep : applyOps env (o :: t) st = applyOps env t (applyOp env st o) := rfl
    rw [hstep]
    refine ih _ ?_ ?_
    · refine Good_applyOp env st wd idf o hg ?_
      intro d hod
      exact hops d (by rw [hod]; exact List.mem_cons_self _ _)
    · intro d hd
      exact hops d (List.mem_cons_of_mem _ hd)

/-- Characterization of a successful `udev_watch_begin`: the channel was
open, the device had an id-filename of writable length, the device's
watch-handle field was set to the fresh handle, and the registry gained the
entry `wdName wd -> id_filename` (after unlinking any stale entry of that
name). -/
theorem begin_ok (env : Env) (st : St) (dev : sd_device) (stB : St) (devB2 : sd_device)
    (hb : udev_watch_begin env st dev = (0, stB, devB2)) :
    ¬ st.inotify_fd < 0 ∧
    ∃ idf : String, dev.id_filename = some idf ∧ ¬ idf.length = 0 ∧ ¬ PATH_MAX ≤ idf.length ∧
      devB2 = { dev with watch_handle := st.nextWd } ∧
      stB = { st with
              nextWd := st.nextWd + 1,
              kernelWatches := st.nextWd :: st.kernelWatches,
              watchDir := some
                (((st.watchDir.getD []).filter (fun e => !(e.name == wdName st.nextWd)))
                  ++ [{ name := wdName st.nextWd, target := some idf }]) } := by
  simp only [udev_watch_begin] at hb
  by_cases hfd : st.inotify_fd < 0
  · rw [if_pos hfd] at hb
    have h1 : -EINVAL = (0 : Int) := congrArg Prod.fst hb
    exact absurd h1 (by decide)
  rw [if_neg hfd] at hb
  refine ⟨hfd, ?_⟩
  cases hdn : dev.devname with
  | none =>
    rw [hdn] at hb
    have h1 : -ENOENT = (0 : Int) := congrArg Prod.fst hb
    exact absurd h1 (by decide)
  | some dn =>
    rw [hdn] at hb
    dsimp only at hb
    by_cases hw : env.watchable dn = true
    · rw [if_pos hw] at hb
      cases hidf : dev.id_filename with
      | none =>
        rw [hidf] at hb
        have h1 : -ENOENT = (0 : Int) := congrArg Prod.fst hb
        exact absurd h1 (by decide)
      | some idf =>
        rw [hidf] at hb
        dsimp only at hb
        by_cases hl : idf.length = 0 ∨ PATH_MAX ≤ idf.length
        · rw [if_pos hl] at hb
          have h1 : -ENAMETOOLONG = (0 : Int) := congrArg Prod.fst hb
          exact absurd h1 (by decide)
        · rw [if_neg hl] at hb
          rw [not_or] at hl
          refine ⟨idf, rfl, hl.1, hl.2, ?_, ?_⟩
          · exact (congrArg (fun p => p.2.2) hb).symm
          · exact (congrArg (fun p => p.2.1) hb).symm
    · rw [if_neg hw] at hb
      have h1 : -EACCES = (0 : Int) := congrArg Prod.fst hb
      exact absurd h1 (by decide)

/-- Unfolding of `udev_watch_restore` on an open channel with a live
registry present and no leftover old directory. -/
theorem restore_some (env : Env) (st : St) (entries : List DirEnt)
    (hnl : ¬ st.inotify_fd < 0) (hdir : st.watchDir = some entries)
    (hold : st.watchOldDir = none) :
    udev_watch_restore env st =
      (0, { (entries.foldl (restoreStep env)
              ([], { st with watchDir := none, watchOldDir := some entries })).2 with
            watchOldDir :=
              if (entries.foldl (restoreStep env)
                    ([], { st with watchDir := none, watchOldDir := some entries })).1.isEmpty
              then none
              else some (entries.foldl (restoreStep env)
                    ([], { st with watchDir := none, watchOldDir := some entries })).1 }) := by
  simp only [udev_watch_restore, if_neg hnl, hdir, hold]

/-- C1, counterexample: the claim says init() requests the channel with
close-on-exec explicitly disabled; in fact the flag word passed to
`inotify_init1` has the `IN_CLOEXEC` bit set, so close-on-exec is enabled,
not disabled. -/
theorem claim1_counterexample :
    ¬ Nat.land udev_watch_init_flags IN_CLOEXEC = 0 := by decide

/-- C1, amended: init() requests the notification channel with
close-on-exec explicitly ENABLED (the `IN_CLOEXEC` bit of the flag word is
set), and on success stores the kernel-returned descriptor in the
process-wide state and returns it. (Children forked without exec still
inherit the open descriptor.) -/
theorem claim1_amended (st : St) (fd : Nat) :
    Nat.land udev_watch_init_flags IN_CLOEXEC = IN_CLOEXEC ∧
    udev_watch_init st (Except.ok fd) = ((fd : Int), { st with inotify_fd := (fd : Int) }) :=
  ⟨by decide, rfl⟩

/-- C6: with the channel uninitialized (negative sentinel descriptor),
restore, begin, end and lookup each fail fast with `-EINVAL` and leave the
state, the device's watch-handle field, and both registry directories
untouched. -/
theorem claim6 (env : Env) (st : St) (dev : sd_device) (wd : Int)
    (hfd : st.inotify_fd < 0) :
    udev_watch_restore env st = (-EINVAL, st) ∧
    udev_watch_begin env st dev = (-EINVAL, st, dev) ∧
    udev_watch_end st dev = (-EINVAL, st, dev) ∧
    udev_watch_lookup env st wd = (-EINVAL, none) := by
  refine ⟨?_, ?_, ?_, ?_⟩ <;>
    simp only [udev_watch_restore, udev_watch_begin, udev_watch_end, udev_watch_lookup,
      if_pos hfd]

/-- C6 witness at a concrete uninitialized state. -/
theorem claim6_witness :
    stNoInit.inotify_fd < 0 ∧
    (udev_watch_restore envTotal stNoInit = (-EINVAL, stNoInit) ∧
     udev_watch_begin envTotal stNoInit devSda = (-EINVAL, stNoInit, devSda) ∧
     udev_watch_end stNoInit devSda = (-EINVAL, stNoInit, devSda) ∧
     udev_watch_lookup envTotal stNoInit 5 = (-EINVAL, none)) :=
  ⟨by decide, claim6 envTotal stNoInit devSda 5 (by decide)⟩

/-- C7: on an initialized channel, looking up a non-negative handle for
which no registry entry exists returns the benign empty result `(0, none)`,
not an error. -/
theorem claim7 (env : Env) (st : St) (wd : Int)
    (hfd : 0 ≤ st.inotify_fd) (hwd : 0 ≤ wd)
    (hent : (st.watchDir.getD []).find? (fun e => e.name == wdName wd) = none) :
    udev_watch_lookup env st wd = (0, none) := by
  have hnl : ¬ st.inotify_fd < 0 := by omega
  have hnw : ¬ wd < 0 := by omega
  simp only [udev_watch_lookup, if_neg hnl, if_neg hnw, hent]

/-- C7 witness: lookup of handle 7 in a state with no registry directory. -/
theorem claim7_witness :
    (0 : Int) ≤ stInit.inotify_fd ∧ (0 : Int) ≤ 7 ∧
    (stInit.watchDir.getD []).find? (fun e => e.name == wdName 7) = none ∧
    udev_watch_lookup envTotal stInit 7 = (0, none) :=
  ⟨by decide, by decide, rfl, claim7 envTotal stInit 7 (by decide) (by decide) rfl⟩

/-- C8: on an initialized channel, looking up a handle whose registry
entry's symlink target has length at least `PATH_MAX` returns the distinct
corruption error `-ENAMETOOLONG` and no device, rather than a silently
truncated identifier. -/
theorem claim8 (env : Env) (st : St) (wd : Int) (ent : DirEnt) (t : String)
    (hfd : 0 ≤ st.inotify_fd) (hwd : 0 ≤ wd)
    (hent : (st.watchDir.getD []).find? (fun e => e.name == wdName wd) = some ent)
    (ht : ent.target = some t) (hlen : PATH_MAX ≤ t.length) :
    udev_watch_lookup env st wd = (-ENAMETOOLONG, none) := by
  have hnl : ¬ st.inotify_fd < 0 := by omega
  have hnw : ¬ wd < 0 := by omega
  have hpm : PATH_MAX = 4096 := rfl
  have hmin : min t.length PATH_MAX = PATH_MAX := by omega
  simp only [udev_watch_lookup, if_neg hnl, if_neg hnw, hent, ht, hmin,
    if_neg (by omega : ¬ PATH_MAX = 0), if_pos (le_refl PATH_MAX)]

/-- C8 witness: the entry for handle 3 has a 4096-character target. -/
theorem claim8_witness :
    (0 : Int) ≤ stLong.inotify_fd ∧ (0 : Int) ≤ 3 ∧
    (stLong.watchDir.getD []).find? (fun e => e.name == wdName 3)
      = some { name := wdName 3, target := some longTarget } ∧
    ({ name := wdName 3, target := some longTarget } : DirEnt).target = some longTarget ∧
    PATH_MAX ≤ longTarget.length ∧
    udev_watch_lookup envTotal stLong 3 = (-ENAMETOOLONG, none) :=
  ⟨by decide, by decide,
   by simp [stLong, List.find?],
   rfl,
   by
     have h : longTarget.length = PATH_MAX := by
       show (List.replicate PATH_MAX 'a').length = PATH_MAX
       exact List.length_replicate _ _
     omega,
   claim8 envTotal stLong 3 { name := wdName 3, target := some longTarget } longTarget
     (by decide) (by decide) (by simp [stLong, List.find?]) rfl
     (by
       have h : longTarget.length = PATH_MAX := by
         show (List.replicate PATH_MAX 'a').length = PATH_MAX
         exact List.length_replicate _ _
       omega)⟩

/-- C9: on an initialized channel, if the live registry directory does not
exist, restore is a successful no-op: it returns 0 and changes nothing (in
particular it creates no "old" directory and re-arms no watches). -/
theorem claim9 (env : Env) (st : St) (hfd : 0 ≤ st.inotify_fd)
    (hdir : st.watchDir = none) :
    udev_watch_restore env st = (0, st) := by
  have hnl : ¬ st.inotify_fd < 0 := by omega
  simp only [udev_watch_restore, if_neg hnl, hdir]

/-- C9 witness at a freshly initialized state with no registry. -/
theorem claim9_witness :
    (0 : Int) ≤ stInit.inotify_fd ∧ stInit.watchDir = none ∧
    udev_watch_restore envTotal stInit = (0, stInit) :=
  ⟨by decide, rfl, claim9 envTotal stInit (by decide) rfl⟩

/-- C2, counterexample: the claim says end(d) never returns an error and
always leaves the watch-handle field cleared. On an initialized channel,
for a device whose handle field holds 3 but whose device name is no longer
retrievable, `udev_watch_end` returns an error and leaves the field at 3. -/
theorem claim2_counterexample :
    (udev_watch_end stInit devGone).1 ≠ 0 ∧
    (udev_watch_end stInit devGone).2.2.watch_handle = 3 := by decide

/-- C2, amended: on an initialized channel, whenever the device has no
watch handle set, or its device name is retrievable, end(d) returns
success and leaves the handle field cleared (negative), and a second call
also returns success with the field still cleared; but if a handle is set
and the device name is not retrievable, end returns that error and leaves
the field unchanged (see the counterexample). -/
theorem claim2_amended (st : St) (dev : sd_device)
    (hfd : 0 ≤ st.inotify_fd)
    (h : dev.watch_handle < 0 ∨ dev.devname.isSome) :
    (udev_watch_end st dev).1 = 0 ∧
    (udev_watch_end st dev).2.2.watch_handle < 0 ∧
    (udev_watch_end (udev_watch_end st dev).2.1 (udev_watch_end st dev).2.2).1 = 0 ∧
    (udev_watch_end (udev_watch_end st dev).2.1
        (udev_watch_end st dev).2.2).2.2.watch_handle < 0 := by
  have hnl : ¬ st.inotify_fd < 0 := by omega
  by_cases hwh : dev.watch_handle < 0
  · have hE : udev_watch_end st dev = (0, st, dev) := by
      simp only [udev_watch_end, if_neg hnl, if_pos hwh]
    refine ⟨by rw [hE], by rw [hE]; exact hwh, ?_, ?_⟩
    · rw [hE]
      show (udev_watch_end st dev).1 = 0
      rw [hE]
    · rw [hE]
      show (udev_watch_end st dev).2.2.watch_handle < 0
      rw [hE]
      exact hwh
  · obtain ⟨dn, hdn⟩ := Option.isSome_iff_exists.mp (h.resolve_left hwh)
    obtain ⟨st2, hfd2, hE⟩ :
        ∃ st2 : St, st2.inotify_fd = st.inotify_fd ∧
          udev_watch_end st dev = (0, st2, { dev with watch_handle := -1 }) := by
      refine ⟨{ st with
          kernelWatches := st.kernelWatches.filter (fun w => !(w == dev.watch_handle)),
          watchDir := st.watchDir.map
            (fun l => l.filter (fun e => !(e.name == wdName dev.watch_handle))) }, rfl, ?_⟩
      simp only [udev_watch_end, if_neg hnl, if_neg hwh, hdn]
    have hE2 : udev_watch_end st2 { dev with watch_handle := -1 }
        = (0, st2, { dev with watch_handle := -1 }) := by
      have hnl2 : ¬ st2.inotify_fd < 0 := by rw [hfd2]; exact hnl
      have hneg : ({ dev with watch_handle := -1 } : sd_device).watch_handle < 0 :=
        show (-1 : Int) < 0 by decide
      simp only [udev_watch_end, if_neg hnl2, if_pos hneg]
    refine ⟨by rw [hE], by rw [hE]; show (-1 : Int) < 0; decide, ?_, ?_⟩
    · rw [hE]
      show (udev_watch_end st2 { dev with watch_handle := -1 }).1 = 0
      rw [hE2]
    · rw [hE]
      show (udev_watch_end st2 { dev with watch_handle := -1 }).2.2.watch_handle < 0
      rw [hE2]
      show (-1 : Int) < 0
      decide

/-- C2 witness: ending the watched device `devStale` (handle 5, name
retrievable) succeeds twice in a row, clearing the field. -/
theorem claim2_witness :
    (0 : Int) ≤ stInit.inotify_fd ∧
    (devStale.watch_handle < 0 ∨ devStale.devname.isSome) ∧
    ((udev_watch_end stInit devStale).1 = 0 ∧
     (udev_watch_end stInit devStale).2.2.watch_handle < 0 ∧
     (udev_watch_end (udev_watch_end stInit devStale).2.1
        (udev_watch_end stInit devStale).2.2).1 = 0 ∧
     (udev_watch_end (udev_watch_end stInit devStale).2.1
        (udev_watch_end stInit devStale).2.2).2.2.watch_handle < 0) :=
  ⟨by decide, by decide, claim2_amended stInit devStale (by decide) (by decide)⟩

/-- C3, counterexample: the claim says the relocated old directory never
exists after restore completes, even with per-entry failures. With a live
registry holding one hidden (dot-named) entry, restore completes with
return value 0 yet `/run/udev/watch.old` still exists (the skipped entry
keeps it non-empty, so the best-effort `rmdir` fails). -/
theorem claim3_counterexample :
    (udev_watch_restore envEmpty stDot).1 = 0 ∧
    (udev_watch_restore envEmpty stDot).2.watchOldDir ≠ none := by decide

/-- C3, amended: after restore completes, the old directory is absent
provided it was absent beforehand and no live-registry entry is hidden
(dot-named); the final removal is only best-effort, and skipped hidden
entries can leave the old directory in place. -/
theorem claim3_amended (env : Env) (st : St)
    (hold : st.watchOldDir = none)
    (hdots : ∀ e ∈ st.watchDir.getD [], dotName e.name = false) :
    (udev_watch_restore env st).2.watchOldDir = none := by
  by_cases hnl : st.inotify_fd < 0
  · simp only [udev_watch_restore, if_pos hnl]
    exact hold
  · cases hdir : st.watchDir with
    | none =>
      simp only [udev_watch_restore, if_neg hnl, hdir]
      exact hold
    | some entries =>
      rw [restore_some env st entries hnl hdir hold]
      dsimp only
      rw [restore_foldl_kept]
      have hfil : entries.filter (fun e => dotName e.name) = [] := by
        rw [List.filter_eq_nil_iff]
        intro a ha
        rw [hdir] at hdots
        simp only [Option.getD_some] at hdots
        simp [hdots a ha]
      simp [hfil]

/-- C3 witness: a registry with one ordinary entry (unresolvable in this
environment, so its re-arm fails): the old directory is still gone. -/
theorem claim3_witness :
    stPlain.watchOldDir = none ∧
    (∀ e ∈ stPlain.watchDir.getD [], dotName e.name = false) ∧
    (udev_watch_restore envEmpty stPlain).2.watchOldDir = none :=
  ⟨rfl, by decide, claim3_amended envEmpty stPlain rfl (by decide)⟩

/-- C5: on an initialized channel with a live registry and no leftover
old directory, restore returns 0 no matter how many entries are corrupt
(unreadable, truncated, or unresolvable) — no bad entry aborts the loop —
and every non-hidden entry is unlinked from the old directory regardless
of whether its watch could be re-armed: any entry still present afterwards
is a skipped dot-named one. -/
theorem claim5 (env : Env) (st : St) (entries : List DirEnt)
    (hfd : 0 ≤ st.inotify_fd) (hdir : st.watchDir = some entries)
    (hold : st.watchOldDir = none) :
    (udev_watch_restore env st).1 = 0 ∧
    ∀ l : List DirEnt, (udev_watch_restore env st).2.watchOldDir = some l →
      ∀ e ∈ l, dotName e.name = true := by
  have hnl : ¬ st.inotify_fd < 0 := by omega
  rw [restore_some env st entries hnl hdir hold]
  refine ⟨rfl, ?_⟩
  intro l hl e he
  dsimp only at hl
  rw [restore_foldl_kept] at hl
  simp only [List.nil_append] at hl
  by_cases hE : (entries.filter (fun e => dotName e.name)).isEmpty
  · rw [if_pos hE] at hl
    exact absurd hl (by simp)
  · rw [if_neg hE] at hl
    have hleq : entries.filter (fun e => dotName e.name) = l := Option.some.inj hl
    rw [← hleq] at he
    exact (List.mem_filter.mp he).2

/-- C5 witness: a registry mixing an unresolvable entry, a hidden entry
and a non-symlink entry: restore still returns 0 and only the hidden entry
can remain. -/
theorem claim5_witness :
    (0 : Int) ≤ stMix.inotify_fd ∧ stMix.watchDir = some
      [{ name := "5", target := some "badid" },
       { name := ".hid", target := some "x" },
       { name := "7", target := none }] ∧
    stMix.watchOldDir = none ∧
    ((udev_watch_restore envEmpty stMix).1 = 0 ∧
     ∀ l : List DirEnt, (udev_watch_restore envEmpty stMix).2.watchOldDir = some l →
       ∀ e ∈ l, dotName e.name = true) :=
  ⟨by decide, rfl, rfl,
   claim5 envEmpty stMix
     [{ name := "5", target := some "badid" },
      { name := ".hid", target := some "x" },
      { name := "7", target := none }]
     (by decide) rfl rfl⟩

/-- C10: on an initialized channel, restore skips every dot-named entry
entirely: when the live registry holds only such entries, the state is
unchanged except that the live directory was renamed away — no target is
read, no watch re-armed, no kernel or registry mutation happens, and the
entries survive in the old directory, whose removal then fails whenever
the entry list is non-empty. -/
theorem claim10 (env : Env) (st : St) (entries : List DirEnt)
    (hfd : 0 ≤ st.inotify_fd) (hdir : st.watchDir = some entries)
    (hold : st.watchOldDir = none)
    (hdots : ∀ e ∈ entries, dotName e.name = true) :
    udev_watch_restore env st =
      (0, { st with
            watchDir := none,
            watchOldDir := if entries.isEmpty then none else some entries }) := by
  have hnl : ¬ st.inotify_fd < 0 := by omega
  rw [restore_some env st entries hnl hdir hold]
  have hkeep : (entries.foldl (restoreStep env)
      ([], { st with watchDir := none, watchOldDir := some entries })).1 = entries := by
    rw [restore_foldl_kept]
    simp [List.filter_eq_self.mpr hdots]
  have hst : (entries.foldl (restoreStep env)
      ([], { st with watchDir := none, watchOldDir := some entries })).2
      = { st with watchDir := none, watchOldDir := some entries } :=
    restore_foldl_st_dots env entries [] _ hdots
  rw [hkeep, hst]

/-- C10 witness: a registry holding exactly one hidden entry survives
restore untouched and keeps the old directory alive. -/
theorem claim10_witness :
    (0 : Int) ≤ stDot.inotify_fd ∧
    stDot.watchDir = some [{ name := ".w", target := some "x" }] ∧
    stDot.watchOldDir = none ∧
    (∀ e ∈ [({ name := ".w", target := some "x" } : DirEnt)], dotName e.name = true) ∧
    udev_watch_restore envTotal stDot =
      (0, { stDot with
            watchDir := none,
            watchOldDir := if [({ name := ".w", target := some "x" } : DirEnt)].isEmpty
                           then none
                           else some [{ name := ".w", target := some "x" }] }) :=
  ⟨by decide, rfl, rfl, by decide,
   claim10 envTotal stDot [{ name := ".w", target := some "x" }] (by decide) rfl rfl (by decide)⟩

/-- C4: if `begin(dev)` succeeds on an initialized channel (in an
environment whose resolution service maps every identifier it resolves to
a device carrying that identifier, and resolves dev's identifier), then
after any sequence of further begin/end operations that does not end dev's
handle (and no channel re-initialization), looking up the handle assigned
to dev returns a device reference with the same device identifier as dev. -/
theorem claim4 (env : Env) (st : St) (dev : sd_device) (stB : St) (devB2 : sd_device)
    (ops : List UOp)
    (hwd0 : 0 ≤ st.nextWd)
    (hres : ∀ s d2, env.resolve s = some d2 → d2.id_filename = some s)
    (hsome : ∀ s, dev.id_filename = some s → (env.resolve s).isSome)
    (hb : udev_watch_begin env st dev = (0, stB, devB2))
    (hops : ∀ d2 : sd_device, UOp.uend d2 ∈ ops → d2.watch_handle ≠ devB2.watch_handle) :
    ∃ dres : sd_device,
      udev_watch_lookup env (applyOps env ops stB) devB2.watch_handle = (0, some dres) ∧
      dres.id_filename = dev.id_filename := by
  obtain ⟨hfd, idf, hidf, hl1, hl2, hdevB, hstB⟩ := begin_ok env st dev stB devB2 hb
  subst hdevB
  subst hstB
  have hGood : Good
      { st with
        nextWd := st.nextWd + 1,
        kernelWatches := st.nextWd :: st.kernelWatches,
        watchDir := some
          (((st.watchDir.getD []).filter (fun e => !(e.name == wdName st.nextWd)))
            ++ [{ name := wdName st.nextWd, target := some idf }]) }
      st.nextWd idf := by
    refine ⟨hwd0, by simp, ?_⟩
    simp only [Option.getD_some]
    rw [find?_append_right _ _ _ (find?_filter_self _ _)]
    rw [List.find?_cons_of_pos _ (by simp)]
  have hG2 := Good_applyOps env ops st.nextWd idf _ hGood
    (fun d2 hd => hops d2 hd)
  obtain ⟨hwd0', hlt', hfind'⟩ := hG2
  obtain ⟨dres, hresolve⟩ := Option.isSome_iff_exists.mp (hsome idf hidf)
  have hfdOps : (applyOps env ops
      { st with
        nextWd := st.nextWd + 1,
        kernelWatches := st.nextWd :: st.kernelWatches,
        watchDir := some
          (((st.watchDir.getD []).filter (fun e => !(e.name == wdName st.nextWd)))
            ++ [{ name := wdName st.nextWd, target := some idf }]) }).inotify_fd
      = st.inotify_fd := by
    rw [applyOps_inotify_fd]
  refine ⟨dres, ?_, ?_⟩
  · show udev_watch_lookup env _ st.nextWd = (0, some dres)
    have hpm : PATH_MAX = 4096 := rfl
    simp only [udev_watch_lookup, hfdOps, if_neg hfd, if_neg (by omega : ¬ st.nextWd < 0),
      hfind', if_neg (by omega : ¬ min idf.length PATH_MAX = 0),
      if_neg (by omega : ¬ PATH_MAX ≤ min idf.length PATH_MAX), hresolve]
  · rw [hres idf dres hresolve, hidf]

/-- C4 witness: begin on `devSda` assigns handle 0; after a further begin
on `devSdb`, lookup of handle 0 still resolves to a device with devSda's
identifier. -/
theorem claim4_witness :
    (0 : Int) ≤ stInit.nextWd ∧
    (∀ s d2, envTotal.resolve s = some d2 → d2.id_filename = some s) ∧
    (∀ s, devSda.id_filename = some s → (envTotal.resolve s).isSome) ∧
    udev_watch_begin envTotal stInit devSda = (0, stW, devW) ∧
    (∀ d2 : sd_device, UOp.uend d2 ∈ opsW → d2.watch_handle ≠ devW.watch_handle) ∧
    (∃ dres : sd_device,
      udev_watch_lookup envTotal (applyOps envTotal opsW stW) devW.watch_handle
        = (0, some dres) ∧
      dres.id_filename = devSda.id_filename) :=
  ⟨by decide,
   fun s d2 h => by
     have h2 : ({ devname := some "/dev/sda", id_filename := some s,
                  watch_handle := -1 } : sd_device) = d2 := Option.some.inj h
     rw [← h2],
   fun s _ => rfl,
   rfl,
   by intro d2 hd; simp [opsW] at hd,
   claim4 envTotal stInit devSda stW devW opsW (by decide)
     (fun s d2 h => by
       have h2 : ({ devname := some "/dev/sda", id_filename := some s,
                    watch_handle := -1 } : sd_device) = d2 := Option.some.inj h
       rw [← h2])
     (fun s _ => rfl)
     rfl
     (by intro d2 hd; simp [opsW] at hd)⟩
